import Mathlib

/-!
Shallow embedding of the job-listing data-cleaning modules
(`location_cleaner.py`, `salary_parser_int.py`, `title_cleaner.py`)
and proofs about the claims of the specification.

Strings are modelled by Lean `String` (logically a list of `Char`).
Python floats are modelled by `PyFloat`: an exact rational for a finite
value together with the two overflow infinities and NaN, so that the
saturation of `float(str)` to ±inf on huge literals, overflow of float
arithmetic, and the NaN results of ±inf arithmetic are all faithful
(the 53-bit rounding of in-range doubles is idealised away — no claim
depends on it). Missing cells are `Option String`; a raised Python
exception is an explicit error value.
Python regular-expression operations are embedded as executable
functions on `List Char` that implement exactly the concrete patterns
appearing in the source.
-/

/-! ### Character and string helpers shared by the three modules -/

/-- Word character in the sense of the regex class `\w` (ASCII): letters, digits, underscore. -/
def isWordChar (c : Char) : Bool := c.isAlphanum || c == '_'

/-- Drop the longest suffix whose characters satisfy `p`. -/
def dropTrailing (p : Char → Bool) (l : List Char) : List Char := (l.reverse.dropWhile p).reverse

/-- Strip leading and trailing whitespace from a character list (Python `str.strip`). -/
def trimL (l : List Char) : List Char := dropTrailing Char.isWhitespace (l.dropWhile Char.isWhitespace)

/-- Python `str.strip`. -/
def pyStrip (s : String) : String := String.mk (trimL s.data)

/-- Python `str.lower` (ASCII letters). -/
def pyLower (s : String) : String := String.mk (s.data.map Char.toLower)

/-- Python `str.upper` (ASCII letters). -/
def pyUpper (s : String) : String := String.mk (s.data.map Char.toUpper)

/-- Word boundary `\b` between the previous character (none at the string start)
and a word character that follows. -/
def wordBoundaryOk (prev : Option Char) : Bool :=
  match prev with
  | none => true
  | some c => !isWordChar c

/-- Word boundary `\b` after a word character: the rest of the input must not
start with a word character. -/
def bAfter : List Char → Bool
  | [] => true
  | c :: _ => !isWordChar c

/-- Match the literal `pat` case-insensitively at the start of `l`,
returning the remaining input. -/
def stripCI : List Char → List Char → Option (List Char)
  | [], l => some l
  | _ :: _, [] => none
  | p :: ps, c :: cs => if p.toLower == c.toLower then stripCI ps cs else none

/-! ### Salary module: `salary_parser_int.py` -/

/-- Regex alternative `\bW1\s*W2\b` (case-insensitive), used for
`\bper\s*year\b` and `\bper\s*annum\b` in `_parse_single_number` (line 51). -/
def matchWordGap (w1 w2 : List Char) (prev : Option Char) (l : List Char) : Option (List Char) :=
  if wordBoundaryOk prev then
    match stripCI w1 l with
    | some r1 =>
      match stripCI w2 (r1.dropWhile Char.isWhitespace) with
      | some r2 => if bAfter r2 then some r2 else none
      | none => none
    | none => none
  else none

/-- Regex alternative `\bW\b` (case-insensitive). -/
def matchWord (w : List Char) (prev : Option Char) (l : List Char) : Option (List Char) :=
  if wordBoundaryOk prev then
    match stripCI w l with
    | some r => if bAfter r then some r else none
    | none => none
  else none

/-- Regex alternative `/yr\b`: no boundary is required before the slash. -/
def matchSlashYr (l : List Char) : Option (List Char) :=
  match stripCI [ '/', 'y', 'r'] l with
  | some r => if bAfter r then some r else none
  | none => none

/-- One attempt, at the current position, of the alternation
`\bper\s*year\b|\bper\s*annum\b|/yr\b|\byr\b|\bannually\b` of line 51,
alternatives tried left to right. -/
def tryVerbose (prev : Option Char) (l : List Char) : Option (List Char) :=
  (matchWordGap [ 'p', 'e', 'r'] [ 'y', 'e', 'a', 'r'] prev l).orElse fun _ =>
  (matchWordGap [ 'p', 'e', 'r'] [ 'a', 'n', 'n', 'u', 'm'] prev l).orElse fun _ =>
  (matchSlashYr l).orElse fun _ =>
  (matchWord [ 'y', 'r'] prev l).orElse fun _ =>
  matchWord [ 'a', 'n', 'n', 'u', 'a', 'l', 'l', 'y'] prev l

/-- Scanning loop of `re.sub(pattern, "", s)` for the verbose-word pattern.
Every alternative ends in a word character and (by `bAfter`) is followed by a
non-word character, so after a removal only the word-character-ness of the
previous character can matter to later boundary tests; a representative word
character is passed. -/
def removeVerboseAux : Nat → Option Char → List Char → List Char
  | 0, _, l => l
  | _ + 1, _, [] => []
  | fuel + 1, prev, c :: cs =>
    match tryVerbose prev (c :: cs) with
    | some rest => removeVerboseAux fuel (some 'r') rest
    | none => c :: removeVerboseAux fuel (some c) cs

/-- The substitution of line 51: delete every occurrence of the verbose-word pattern. -/
def removeVerbose (l : List Char) : List Char := removeVerboseAux l.length none l

/-- The character filter of line 52: keep digits, dots, commas, `k`/`m` in both
cases, signs and parentheses. -/
def keepNumish (l : List Char) : List Char :=
  l.filter (fun c => c.isDigit || c == '.' || c == ',' || c == 'k' || c == 'K' || c == 'm' ||
    c == 'M' || c == '-' || c == '+' || c == '(' || c == ')')

/-- Characters allowed inside the parenthesised-negative pattern
`^\([\d\.,\skmKM]+\)$` of line 55. -/
def parenInnerChar (c : Char) : Bool :=
  c.isDigit || c == '.' || c == ',' || c.isWhitespace || c == 'k' || c == 'm' || c == 'K' ||
    c == 'M'

/-- Full-string match of `^\([\d\.,\skmKM]+\)$` (line 55). -/
def parenNumMatch (l : List Char) : Bool :=
  match l with
  | '(' :: rest =>
    (rest.getLast? == some ')') && !rest.dropLast.isEmpty && rest.dropLast.all parenInnerChar
  | _ => false

/-- Line 56: `"-" + s1.strip().lstrip("(").rstrip(")")`. -/
def parenTransform (l : List Char) : List Char :=
  '-' :: dropTrailing (fun c => c == ')') ((trimL l).dropWhile (fun c => c == '('))

/-- A `k`/`K`/`m`/`M` suffix character. -/
def kmChar (c : Char) : Bool := c == 'k' || c == 'K' || c == 'm' || c == 'M'

/-- Characters of the numeric body `[\d\.,]` in the suffix pattern of line 59. -/
def numBodyChar (c : Char) : Bool := c.isDigit || c == '.' || c == ','

/-- Full-string match of `^([+-]?[\d\.,]+)\s*([kKmM])$` (line 59), returning
the first capture group and the suffix character. -/
def kmSuffix (l : List Char) : Option (List Char × Char) :=
  match l.getLast? with
  | none => none
  | some suf =>
    if kmChar suf then
      let mid := dropTrailing Char.isWhitespace l.dropLast
      match mid with
      | [] => none
      | c :: cs =>
        if c == '+' || c == '-' then
          if !cs.isEmpty && cs.all numBodyChar then some (mid, suf) else none
        else
          if mid.all numBodyChar then some (mid, suf) else none
    else none

/-- Numeric value of a list of decimal digits. -/
def digitsToNat (l : List Char) : Nat := l.foldl (fun a c => a * 10 + (c.toNat - 48)) 0

/-- Unsigned part of Python `float(str)` restricted to the digit/dot strings the
parser can produce: `digits`, `digits.digits`, `digits.` or `.digits`. Any other
character (a second dot, a stray sign, a `k`) makes `float` raise, modelled by `none`. -/
def parseUnsignedFloat (l : List Char) : Option ℚ :=
  let ip := l.takeWhile Char.isDigit
  let rest := l.drop ip.length
  match rest with
  | [] => if ip.isEmpty then none else some ((digitsToNat ip : ℚ))
  | '.' :: fp =>
    if fp.all Char.isDigit && (!ip.isEmpty || !fp.isEmpty) then
      some ((digitsToNat ip : ℚ) + (digitsToNat fp : ℚ) / ((10 : ℚ) ^ fp.length))
    else none
  | _ => none

/-- A CPython float value: a finite value (idealised as an exact rational),
the two infinities produced by saturation and overflow, and NaN, which is
also what `np.nan` — the missing-value marker of the module — is. -/
inductive PyFloat where
  | finite (q : ℚ)
  | inf
  | ninf
  | nan
deriving Repr, DecidableEq

/-- Is the value NaN (`pd.isna` on a float value). -/
def isNan : PyFloat → Bool
  | .nan => true
  | _ => false

/-- The smallest magnitude at which IEEE double rounding overflows to
infinity, `2 ^ 1024 - 2 ^ 970`: `float(str)` and float arithmetic give ±inf at
or past it (for example `float("9" * 400)` is `inf`, with no exception). -/
def OVERFLOW_BOUND : ℚ := ((2 ^ 1024 - 2 ^ 970 : ℕ) : ℚ)

/-- Round an exact result to a CPython float: saturate to ±inf past the
overflow bound, keep it (idealised exactly) otherwise. -/
def satFloat (q : ℚ) : PyFloat :=
  if OVERFLOW_BOUND ≤ q then .inf
  else if q ≤ -OVERFLOW_BOUND then .ninf
  else .finite q

/-- IEEE addition: NaN propagates, opposite infinities give NaN, an infinity
absorbs a finite value, and a finite sum saturates on overflow. -/
def pyAdd (a b : PyFloat) : PyFloat :=
  match a, b with
  | .nan, _ => .nan
  | _, .nan => .nan
  | .inf, .ninf => .nan
  | .ninf, .inf => .nan
  | .inf, _ => .inf
  | _, .inf => .inf
  | .ninf, _ => .ninf
  | _, .ninf => .ninf
  | .finite p, .finite q => satFloat (p + q)

/-- IEEE division by `2.0`: halving a finite double cannot overflow; NaN and
the infinities are fixed points. -/
def pyHalf : PyFloat → PyFloat
  | .finite q => .finite (q / 2)
  | x => x

/-- IEEE division by a positive integer count (used by the mean), with the
same fixed points. -/
def pyDivN (a : PyFloat) (n : ℕ) : PyFloat :=
  match a with
  | .finite q => .finite (q / (n : ℚ))
  | x => x

/-- IEEE multiplication by a positive constant (the `k`/`m` suffixes): a
finite product saturates on overflow, NaN and the infinities are fixed. -/
def pyMulK (a : PyFloat) (k : ℚ) : PyFloat :=
  match a with
  | .finite q => satFloat (q * k)
  | x => x

/-- Order embedding of the non-NaN float values: −∞ below every rational,
+∞ above. NaN is mapped to ⊥ but the comparison functions below never
consult the embedding on NaN. -/
def toE : PyFloat → WithBot (WithTop ℚ)
  | .nan => ⊥
  | .ninf => ⊥
  | .inf => ((⊤ : WithTop ℚ) : WithBot (WithTop ℚ))
  | .finite q => (((q : ℚ) : WithTop ℚ) : WithBot (WithTop ℚ))

/-- IEEE `<` as Python evaluates it: every comparison against NaN is false. -/
def pyLt (a b : PyFloat) : Bool :=
  match a, b with
  | .nan, _ => false
  | _, .nan => false
  | x, y => decide (toE x < toE y)

/-- IEEE `<=`: every comparison against NaN is false. -/
def pyLe (a b : PyFloat) : Bool :=
  match a, b with
  | .nan, _ => false
  | _, .nan => false
  | x, y => decide (toE x ≤ toE y)

/-- One step of Python `min(nums)`: keep the accumulator unless the next
element is strictly smaller. -/
def pyMinAcc (cur x : PyFloat) : PyFloat := if pyLt x cur then x else cur

/-- One step of Python `max(nums)`. -/
def pyMaxAcc (cur x : PyFloat) : PyFloat := if pyLt cur x then x else cur

/-- Python `float(str)` on the strings reaching it in this module: optional
surrounding whitespace, optional sign, then an unsigned decimal number whose
exact value is rounded to a float, saturating to ±inf past the overflow
bound; `none` models the `ValueError` of a malformed literal. -/
def floatParse (s : String) : Option PyFloat :=
  match trimL s.data with
  | '+' :: r => (parseUnsignedFloat r).map satFloat
  | '-' :: r => (parseUnsignedFloat r).map (fun q => satFloat (-q))
  | l => (parseUnsignedFloat l).map satFloat

/-- Guard of Strategy B (line 82): the string contains a dot and a comma and the
last comma comes after the last dot. -/
def euroGuard (l : List Char) : Bool :=
  match l.reverse.findIdx? (fun c => c == ','), l.reverse.findIdx? (fun c => c == '.') with
  | some i, some j => i < j
  | _, _ => false

/-- Greedy match of `\d+[.,]?\d*[kKmM]?` at the start of `l` (the token regex of
lines 91 and 135 after its optional sign), returning the token and the rest. -/
def numTokenCore (l : List Char) : Option (List Char × List Char) :=
  let d1 := l.takeWhile Char.isDigit
  if d1.isEmpty then none
  else
    let r1 := l.drop d1.length
    let sepRest : List Char × List Char :=
      match r1 with
      | c :: cs => if c == '.' || c == ',' then ([c], cs) else ([], r1)
      | [] => ([], r1)
    let d2 := sepRest.2.takeWhile Char.isDigit
    let r3 := sepRest.2.drop d2.length
    let sufRest : List Char × List Char :=
      match r3 with
      | c :: cs => if kmChar c then ([c], cs) else ([], r3)
      | [] => ([], r3)
    some (d1 ++ sepRest.1 ++ d2 ++ sufRest.1, sufRest.2)

/-- Match of `[+-]?\d+[.,]?\d*[kKmM]?` at the start of `l`. -/
def numTokenAt (l : List Char) : Option (List Char × List Char) :=
  match l with
  | [] => none
  | c :: cs =>
    if c == '+' || c == '-' then
      match numTokenCore cs with
      | some (tok, rest) => some (c :: tok, rest)
      | none => none
    else numTokenCore l

/-- Scanning loop of `re.findall` for the numeric-token regex: leftmost,
non-overlapping matches. Each successful match consumes at least one character,
so fuel equal to the length of the input suffices. -/
def findNumTokensAux : Nat → List Char → List (List Char)
  | 0, _ => []
  | _ + 1, [] => []
  | fuel + 1, c :: cs =>
    match numTokenAt (c :: cs) with
    | some (tok, rest) => tok :: findNumTokensAux fuel rest
    | none => findNumTokensAux fuel cs

/-- `re.findall(r"[+-]?\d+[.,]?\d*[kKmM]?", s)` (lines 91 and 135). -/
def findNumTokens (l : List Char) : List (List Char) := findNumTokensAux l.length l

/-- Replacement of the non-breaking space and stripping (`_normalize_whitespace`,
lines 33-36). -/
def normalizeWhitespace (s : String) : String :=
  pyStrip (String.mk (s.data.map (fun c => if c == '\u00A0' then ' ' else c)))

/-- Embedding of `_parse_single_number` (lines 39-103): parse one numeric
expression; `PyFloat.nan` stands for the `np.nan` returned on every failure
path, and a huge literal parses to ±inf exactly as `float` does. -/
def parse_single_number (s : Option String) : PyFloat :=
  match s with
  | none => .nan
  | some str =>
    let s0 := normalizeWhitespace str
    if s0 = "" || ["na", "n/a", "none", "-", "—", "[]"].contains (pyLower s0) then .nan
    else
      let s1pre := keepNumish (removeVerbose s0.data)
      let s1 := if parenNumMatch s1pre then parenTransform s1pre else s1pre
      match kmSuffix (trimL s1) with
      | some (numGroup, suf) =>
        match floatParse (String.mk (numGroup.filter (fun c => !(c == ',') && !(c == ' ')))) with
        | some v => if suf.toLower == 'k' then pyMulK v 1000 else pyMulK v 1000000
        | none => .nan
      | none =>
        let a := ((s1.filter (fun c => !(c == ' '))).filter (fun c => !(c == ','))).filter
          (fun c => c.isDigit || c == '.' || c == '-')
        let resA := if !a.isEmpty && a.any Char.isDigit then floatParse (String.mk a) else none
        match resA with
        | some v => v
        | none =>
          let resB :=
            if euroGuard s1 then
              floatParse (String.mk (((s1.filter (fun c => !(c == '.'))).map
                (fun c => if c == ',' then '.' else c)).filter
                (fun c => c.isDigit || c == '.' || c == '-')))
            else none
          match resB with
          | some v => v
          | none =>
            match findNumTokens s1 with
            | t :: _ =>
              let t1 := if t.contains ',' && !(t.contains '.') then
                  t.map (fun c => if c == ',' then '.' else c)
                else t
              match floatParse (String.mk (t1.filter (fun c => !(c == ',')))) with
              | some v => v
              | none => .nan
            | [] => .nan

/-- Opening wrapper characters of the cleanup regex of line 118. -/
def isOpenWrap (c : Char) : Bool := c == '[' || c == '(' || c == '{' || c == '\'' || c == '"'

/-- Closing wrapper characters of the cleanup regex of line 118. -/
def isCloseWrap (c : Char) : Bool := c == ']' || c == ')' || c == '}' || c == '\'' || c == '"'

/-- Substitution `re.sub(r"^[\[\(\{'\"]+|[\]\)\}'\"]+$", "", s)` (line 118):
remove the maximal leading run of opening wrappers and the maximal trailing run
of closing wrappers. -/
def stripWrap (s : String) : String :=
  String.mk (dropTrailing isCloseWrap (s.data.dropWhile isOpenWrap))

/-- Hyphen, en-dash or em-dash, the dash alternatives of the range separator
regex `\bto\b|[-–—]` (lines 121-122). -/
def isDashChar (c : Char) : Bool := c == '-' || c == '–' || c == '—'

/-- One attempt of the range separator alternation `\bto\b|[-–—]` (case
sensitive) at the current position, returning the last matched character and the
rest. -/
def rangeSepAt (prev : Option Char) (l : List Char) : Option (Char × List Char) :=
  match l with
  | 't' :: 'o' :: rest =>
    if wordBoundaryOk prev && bAfter rest then some ('o', rest) else none
  | c :: cs => if isDashChar c then some (c, cs) else none
  | [] => none

/-- `re.search` for the range separator (line 121). -/
def hasRangeSep : Option Char → List Char → Bool
  | _, [] => false
  | prev, c :: cs => (rangeSepAt prev (c :: cs)).isSome || hasRangeSep (some c) cs

/-- Scanning loop of `re.split` on the range separator (line 122); separators
are dropped, segments (possibly empty) are kept. -/
def splitRangeAux : Nat → Option Char → List Char → List Char → List (List Char)
  | 0, _, acc, l => [acc.reverse ++ l]
  | _ + 1, _, acc, [] => [acc.reverse]
  | fuel + 1, prev, acc, c :: cs =>
    match rangeSepAt prev (c :: cs) with
    | some (lc, rest) => acc.reverse :: splitRangeAux fuel (some lc) [] rest
    | none => splitRangeAux fuel (some c) (c :: acc) cs

/-- `re.split(r"\bto\b|[-–—]", s)` (line 122). -/
def splitRange (l : List Char) : List (List Char) := splitRangeAux l.length none [] l

/-- Shared min/max/mean derivation of `parse_salary_field` (lines 126-132 and
139-142) over the NaN-filtered numbers: none gives all-NaN, one number is
repeated, two or more give minimum, maximum and the float value of
`(min + max) / 2.0` — which is NaN when the minimum is −∞ and the maximum +∞,
and +∞ when the finite sum overflows. -/
def rangeResult (nums : List PyFloat) : PyFloat × PyFloat × PyFloat :=
  match nums with
  | [] => (.nan, .nan, .nan)
  | [x] => (x, x, x)
  | x :: y :: ys =>
    let mn := (y :: ys).foldl pyMinAcc x
    let mx := (y :: ys).foldl pyMaxAcc x
    (mn, mx, pyHalf (pyAdd mn mx))

/-- Single-number fallback of `parse_salary_field` (lines 145-148). -/
def singleResult (sc : String) : PyFloat × PyFloat × PyFloat :=
  let v := parse_single_number (some sc)
  if isNan v then (.nan, .nan, .nan) else (v, v, v)

/-- Embedding of `parse_salary_field` (lines 106-148): parse a salary cell into
`(min, max, mean)`, with `PyFloat.nan` standing for `np.nan`; the
`pd.notna` comprehensions keep the non-NaN values (±inf among them). -/
def parse_salary_field (cell : Option String) : PyFloat × PyFloat × PyFloat :=
  match cell with
  | none => (.nan, .nan, .nan)
  | some raw =>
    let s := normalizeWhitespace raw
    if s = "" then (.nan, .nan, .nan)
    else
      let sc := pyStrip (stripWrap s)
      if hasRangeSep none sc.data then
        rangeResult (((((splitRange sc.data).map (fun l => pyStrip (String.mk l))).filter
          (fun p => p != "")).map (fun p => parse_single_number (some p))).filter
          (fun v => !(isNan v)))
      else
        let tokens := findNumTokens sc.data
        if tokens.length ≥ 2 then
          let nums := (tokens.map (fun t => parse_single_number (some (String.mk t)))).filter
            (fun v => !(isNan v))
          if nums.length ≥ 2 then rangeResult nums else singleResult sc
        else singleResult sc

/-! ### Location module: `location_cleaner.py` -/

/-- Structured result of `parse_location` (the dict of lines 151-157). -/
structure LocationRecord where
  city : Option String
  state : Option String
  country : Option String
  is_remote : Bool
  raw : Option String
deriving Repr, DecidableEq

/-- COUNTRY_MAP of lines 23-38. -/
def COUNTRY_MAP : List (String × String) :=
  [("us", "US"), ("usa", "US"), ("united states", "US"), ("united states of america", "US"),
   ("uk", "UK"), ("gb", "UK"), ("united kingdom", "UK"), ("england", "UK"),
   ("canada", "CA"), ("ca", "CA"), ("australia", "AU"), ("au", "AU"),
   ("india", "IN"), ("in", "IN")]

/-- US_STATE_MAP of lines 41-96. -/
def US_STATE_MAP : List (String × String) :=
  [("alabama", "AL"), ("alaska", "AK"), ("arizona", "AZ"), ("arkansas", "AR"),
   ("california", "CA"), ("colorado", "CO"), ("connecticut", "CT"), ("delaware", "DE"),
   ("florida", "FL"), ("georgia", "GA"), ("hawaii", "HI"), ("idaho", "ID"),
   ("illinois", "IL"), ("indiana", "IN"), ("iowa", "IA"), ("kansas", "KS"),
   ("kentucky", "KY"), ("louisiana", "LA"), ("maine", "ME"), ("maryland", "MD"),
   ("massachusetts", "MA"), ("michigan", "MI"), ("minnesota", "MN"), ("mississippi", "MS"),
   ("missouri", "MO"), ("montana", "MT"), ("nebraska", "NE"), ("nevada", "NV"),
   ("new hampshire", "NH"), ("new jersey", "NJ"), ("new mexico", "NM"), ("new york", "NY"),
   ("north carolina", "NC"), ("north dakota", "ND"), ("ohio", "OH"), ("oklahoma", "OK"),
   ("oregon", "OR"), ("pennsylvania", "PA"), ("rhode island", "RI"), ("south carolina", "SC"),
   ("south dakota", "SD"), ("tennessee", "TN"), ("texas", "TX"), ("utah", "UT"),
   ("vermont", "VT"), ("virginia", "VA"), ("washington", "WA"), ("west virginia", "WV"),
   ("wisconsin", "WI"), ("wyoming", "WY"), ("district of columbia", "DC"),
   ("washington dc", "DC"), ("dc", "DC")]

/-- Lookup in COUNTRY_MAP. -/
def countryLookup (t : String) : Option String :=
  (COUNTRY_MAP.find? (fun p => p.1 == t)).map (fun p => p.2)

/-- Lookup in US_STATE_MAP. -/
def stateLookup (t : String) : Option String :=
  (US_STATE_MAP.find? (fun p => p.1 == t)).map (fun p => p.2)

/-- The set of state abbreviations, `_state_abbrev_set` of line 99. -/
def stateAbbrevs : List String := US_STATE_MAP.map (fun p => p.2)

/-- Embedding of `_normalize_country` (lines 102-120). -/
def normalize_country (token : String) : Option String :=
  let t0 := pyLower (pyStrip token)
  let t := pyStrip (String.mk (t0.data.filter (fun c => isWordChar c || c.isWhitespace)))
  if t = "" then none
  else
    match countryLookup t with
    | some v => some v
    | none =>
      if t.length == 2 && t.data.all Char.isAlpha then some (pyUpper t)
      else if pyStrip token != "" then some (pyUpper (pyStrip token)) else none

/-- Embedding of `_normalize_state` (lines 123-142). -/
def normalize_state (token : String) : Option String :=
  let t := pyStrip token
  if t = "" then none
  else
    let up := pyUpper t
    if stateAbbrevs.contains up then some up
    else
      match stateLookup (pyLower t) with
      | some v => some v
      | none => none

/-- Separator characters of the split regex `[,/|]+` (line 165). -/
def isLocSep (c : Char) : Bool := c == ',' || c == '/' || c == '|'

/-- Scanning loop of `re.split(r"[,/|]+", s)`: a maximal run of separators ends
a segment. Each step consumes at least one character, so fuel equal to the
length of the input suffices. -/
def splitSepsAux : Nat → List Char → List Char → List (List Char)
  | 0, acc, l => [acc.reverse ++ l]
  | _ + 1, acc, [] => [acc.reverse]
  | fuel + 1, acc, c :: cs =>
    if isLocSep c then acc.reverse :: splitSepsAux fuel [] (cs.dropWhile isLocSep)
    else splitSepsAux fuel (c :: acc) cs

/-- `re.split(r"[,/|]+", s)`. -/
def splitOnSeps (l : List Char) : List (List Char) := splitSepsAux l.length [] l

/-- Is `pre` a prefix of `l` (Python `str.startswith`). -/
def listStartsWith : List Char → List Char → Bool
  | [], _ => true
  | _ :: _, [] => false
  | p :: ps, c :: cs => (p == c) && listStartsWith ps cs

/-- Is `suf` a suffix of `l` (Python `str.endswith`). -/
def listEndsWith (suf l : List Char) : Bool := listStartsWith suf.reverse l.reverse

/-- The token list of line 165: split on `[,/|]+`, strip, drop blanks. -/
def locParts (s : String) : List String :=
  ((splitOnSeps s.data).map (fun l => pyStrip (String.mk l))).filter (fun p => p != "")

/-- The remote test of line 171 on the lowered tokens: an exact `remote` token,
or a token starting with `remote ` or ending with ` remote`. -/
def remoteDetect (parts : List String) : Bool :=
  (parts.map pyLower).any (fun p =>
    p == "remote" || listStartsWith ("remote ").data p.data || listEndsWith (" remote").data p.data)

/-- Lines 171-173: when the remote test fires, drop the tokens whose lower case
form is exactly `remote` (and only those). -/
def remoteFilter (parts : List String) : List String :=
  if remoteDetect parts then parts.filter (fun p => pyLower p != "remote") else parts

/-- Acceptance condition of line 186 for the last token as a country. -/
def countryAccept (last : String) : Option String → Bool
  | none => false
  | some c =>
    (countryLookup (pyLower (pyStrip last))).isSome ||
      ((pyStrip last).length == 2 && (pyStrip last).data.all Char.isAlpha) ||
      !(c == pyUpper (pyStrip last))

/-- Country extraction from the tail of the token list (lines 182-196),
returning the country and the remaining tokens. -/
def countryStep (parts : List String) : Option String × List String :=
  match parts.getLast? with
  | none => (none, parts)
  | some last =>
    let country := normalize_country last
    if countryAccept last country then (country, parts.dropLast)
    else
      let lastClean := pyLower (pyStrip last)
      if (countryLookup lastClean).isSome ||
          (lastClean.length == 2 && lastClean.data.all Char.isAlpha) then
        (normalize_country last, parts.dropLast)
      else (none, parts)

/-- State extraction from the new tail (lines 199-205). -/
def stateStep (parts : List String) : Option String × List String :=
  match parts.getLast? with
  | none => (none, parts)
  | some cand =>
    match normalize_state cand with
    | some ab => (some ab, parts.dropLast)
    | none => (none, parts)

/-- City assembly of lines 208-209: remaining tokens joined with `, `. -/
def cityOf (parts : List String) : Option String :=
  if parts.isEmpty then none else some (pyStrip (String.intercalate (", ") parts))

/-- Message of the Python exception raised by `parts[-1]` on an empty list. -/
def pyIndexError : String := "IndexError: list index out of range"

/-- Result of running a Python call that can raise: either a value or a raised
exception carrying its message. -/
inductive PyResult (α : Type) where
  | ok (a : α)
  | error (e : String)
deriving Repr, DecidableEq

/-- Embedding of `parse_location` (lines 145-215). The function is not total:
when every token of a non-blank input is removed as an exact `remote` token,
line 183 evaluates `parts[-1]` on an empty list and raises `IndexError`,
modelled by `PyResult.error`. -/
def parse_location (cell : Option String) : PyResult LocationRecord :=
  match cell with
  | none => .ok { city := none, state := none, country := none, is_remote := false, raw := none }
  | some raw0 =>
    if pyStrip raw0 = "" then
      .ok { city := none, state := none, country := none, is_remote := false, raw := some raw0 }
    else if locParts (pyStrip raw0) = [] then
      .ok { city := none, state := none, country := none, is_remote := false, raw := some raw0 }
    else
      match (remoteFilter (locParts (pyStrip raw0))).getLast? with
      | none => .error pyIndexError
      | some _ =>
        let parts1 := remoteFilter (locParts (pyStrip raw0))
        let cs := countryStep parts1
        let ss := stateStep cs.2
        let city0 := cityOf ss.2
        let ctry :=
          match city0, cs.1 with
          | some c, none =>
            if c != "" && (["US", "USA", "UNITED STATES", "UK", "UNITED KINGDOM"].contains
                (pyUpper (pyStrip c))) then
              normalize_country c
            else none
          | _, _ => cs.1
        .ok { city := city0, state := ss.1, country := ctry,
              is_remote := remoteDetect (locParts (pyStrip raw0)), raw := some raw0 }

/-! ### Title module: `title_cleaner.py` -/

/-- DATA_PATTERNS of lines 8-27. Every source regex is a word-boundary literal
(no pattern has a character class); a pattern is embedded as the list of its
literal alternatives. -/
def DATA_PATTERNS : List (List String) :=
  [["data scientist"], ["data science"], ["machine learning"], ["ml engineer"], ["ml"],
   ["deep learning"], ["computer vision"], ["nlp"], ["natural language"], ["pytorch"],
   ["tensorflow"], ["scikit"], ["pyspark"], ["spark"], ["data engineer"], ["data analyst"],
   ["statistician"], ["research scientist"]]

/-- SOFTWARE_PATTERNS of lines 31-48; `front[- ]?end` and `full[- ]?stack`
expand to their three literal alternatives. -/
def SOFTWARE_PATTERNS : List (List String) :=
  [["software engineer"], ["software developer"], ["devops"], ["sre"], ["site reliability"],
   ["backend"], ["frontend", "front-end", "front end"], ["fullstack", "full-stack", "full stack"],
   ["mobile engineer"], ["platform engineer"], ["application engineer"], ["engineer"],
   ["programmer"], ["developer"], ["backend"], ["frontend"]]

/-- Case-insensitive match of the literal `pat` at the current position followed
by a closing word boundary. -/
def litHere : List Char → List Char → Bool
  | [], [] => true
  | [], c :: _ => !isWordChar c
  | _ :: _, [] => false
  | p :: ps, c :: cs => (p.toLower == c.toLower) && litHere ps cs

/-- `re.search` (case-insensitive) for `\b pat \b` anywhere in the text. -/
def wbSearch (pat : List Char) : Option Char → List Char → Bool
  | _, [] => false
  | prev, c :: cs => (wordBoundaryOk prev && litHere pat (c :: cs)) || wbSearch pat (some c) cs

/-- Does one source pattern (a list of literal alternatives) match the title. -/
def patSearch (alts : List String) (t : String) : Bool :=
  alts.any (fun a => wbSearch a.data none t.data)

/-- First-match scan over an ordered pattern list (lines 81-88); since every
pattern of a list maps to the same label, it is the disjunction that matters. -/
def anyPattern (pats : List (List String)) (t : String) : Bool :=
  pats.any (fun p => patSearch p t)

/-- Embedding of `classify_title` (lines 59-93). -/
def classify_title (title : Option String) (unknown_label other_label : String)
    (coerce_other_to_sw : Bool) : String :=
  match title with
  | none => unknown_label
  | some ttl =>
    let t := pyStrip ttl
    if t = "" then unknown_label
    else if anyPattern DATA_PATTERNS t then "Data Scientist"
    else if anyPattern SOFTWARE_PATTERNS t then "Software Engineer"
    else if coerce_other_to_sw then "Software Engineer"
    else other_label

/-! ### Batch driver of `salary_parser_int.py`: `clean_salary_columns_int` and
`export_for_tableau` -/

/-- The slice of the DataFrame read by `clean_salary_columns_int`: the row count
and the three optional source columns (a `none` column models
`col_name not in df.columns`). -/
structure SalaryCols where
  n : Nat
  meanCol : Option (List (Option String))
  minCol : Option (List (Option String))
  maxCol : Option (List (Option String))
deriving Repr, DecidableEq

/-- One slot update of `_fill_from_column` (lines 188-193): a non-NaN parsed
value is taken only when the slot is still NaN. -/
def fillSlot (cur new : PyFloat) : PyFloat :=
  if !(isNan new) && isNan cur then new else cur

/-- One pass of `_fill_from_column` (lines 183-193) over a source column. -/
def fillFromColumn (cells : List (Option String)) (pm px pe : List PyFloat) :
    List PyFloat × List PyFloat × List PyFloat :=
  (List.zipWith (fun c cur => fillSlot cur (parse_salary_field c).1) cells pm,
   List.zipWith (fun c cur => fillSlot cur (parse_salary_field c).2.1) cells px,
   List.zipWith (fun c cur => fillSlot cur (parse_salary_field c).2.2) cells pe)

/-- Three-list `zipWith`. -/
def zip3With (f : α → β → γ → δ) : List α → List β → List γ → List δ
  | a :: as, b :: bs, c :: cs => f a b c :: zip3With f as bs cs
  | _, _, _ => []

/-- Per-row last-pass reconciliation of lines 204-210, with the sequential
update order of the source: min and max are filled from the original mean, the
mean from the (possibly just filled) min and max — by the float expression
`(min + max) / 2.0`, which is itself NaN when they are opposite infinities. -/
def lastPassRow (m x e : PyFloat) : PyFloat × PyFloat × PyFloat :=
  let m1 := if isNan m && !(isNan e) then e else m
  let x1 := if isNan x && !(isNan e) then e else x
  let e1 := if isNan e && !(isNan m1) && !(isNan x1) then pyHalf (pyAdd m1 x1) else e
  (m1, x1, e1)

/-- The parsed and reconciled temporary columns of lines 178-210: start from
all-undefined rows, fill from the mean, min and max columns in that priority
order, then run the per-row last pass. -/
def parsedReconciled (cols : SalaryCols) :
    List PyFloat × List PyFloat × List PyFloat :=
  let i0 : List PyFloat × List PyFloat × List PyFloat :=
    (List.replicate cols.n .nan, List.replicate cols.n .nan, List.replicate cols.n .nan)
  let st1 := match cols.meanCol with
    | some cells => fillFromColumn cells i0.1 i0.2.1 i0.2.2
    | none => i0
  let st2 := match cols.minCol with
    | some cells => fillFromColumn cells st1.1 st1.2.1 st1.2.2
    | none => st1
  let st3 := match cols.maxCol with
    | some cells => fillFromColumn cells st2.1 st2.2.1 st2.2.2
    | none => st2
  (zip3With (fun m x e => (lastPassRow m x e).1) st3.1 st3.2.1 st3.2.2,
   zip3With (fun m x e => (lastPassRow m x e).2.1) st3.1 st3.2.1 st3.2.2,
   zip3With (fun m x e => (lastPassRow m x e).2.2) st3.1 st3.2.1 st3.2.2)

/-- The known (non-NaN) values of a column — what `skipna=True` statistics
see; ±inf counts as known. -/
def knownVals (l : List PyFloat) : List PyFloat := l.filter (fun x => !(isNan x))

/-- Insertion into a list sorted by the float order (NaN never occurs among
the known values being sorted). -/
def insertSorted (a : PyFloat) : List PyFloat → List PyFloat
  | [] => [a]
  | b :: bs => if pyLe a b then a :: b :: bs else b :: insertSorted a bs

/-- Sort a list of float values. -/
def sortPy (l : List PyFloat) : List PyFloat := l.foldr insertSorted []

/-- Median of a list: middle element of the sorted list, or the float average
of the two middle elements for even length (the pandas `Series.median`); the
average of −∞ and +∞ is NaN. -/
def medianOf (k : List PyFloat) : PyFloat :=
  let s := sortPy k
  if s.length == 0 then .nan
  else if s.length % 2 == 1 then (s[s.length / 2]?).getD .nan
  else
    match s[s.length / 2 - 1]?, s[s.length / 2]? with
    | some a, some b => pyHalf (pyAdd a b)
    | _, _ => .nan

/-- `Series.median(skipna=True)`: NaN when there is no known value, and also
when the two middle known values are opposite infinities. -/
def medianStat (l : List PyFloat) : PyFloat := medianOf (knownVals l)

/-- `Series.mean(skipna=True)`: the float sum of the known values over their
count; NaN when there is no known value, and also when the known values
include both −∞ and +∞ (their sum is NaN). The accumulation order of the
pandas implementation is idealised as a left fold, which agrees on the
NaN-producing and all-finite-exact cases the claims rest on. -/
def meanStat (l : List PyFloat) : PyFloat :=
  let k := knownVals l
  if k.isEmpty then .nan else pyDivN (k.foldl pyAdd (.finite 0)) k.length

/-- `Series.fillna(stat)`: replace the NaN entries by the statistic; filling
with a NaN statistic leaves the column unchanged. -/
def fillNA (stat : PyFloat) (l : List PyFloat) : List PyFloat :=
  l.map (fun x => if isNan x then stat else x)

/-- The filled float columns of `clean_salary_columns_int` (lines 178-232, the
`enforce_int=False` output of lines 252-254 and 261-263): under the `median`
strategy the min and max columns are filled with their medians and the mean
column with its mean (line 221 of the source uses `.mean()`); under the `mean`
strategy all three are filled with their means; any other strategy leaves the
undefined entries in place. -/
def clean_salary_float (cols : SalaryCols) (fill_strategy : Option String) :
    List PyFloat × List PyFloat × List PyFloat :=
  let p := parsedReconciled cols
  if fill_strategy == some ("median") then
    (fillNA (medianStat p.1) p.1, fillNA (medianStat p.2.1) p.2.1, fillNA (meanStat p.2.2) p.2.2)
  else if fill_strategy == some ("mean") then
    (fillNA (meanStat p.1) p.1, fillNA (meanStat p.2.1) p.2.1, fillNA (meanStat p.2.2) p.2.2)
  else p

/-- Round half to even, the rounding of `Series.round(0)`. -/
def roundHalfEven (v : ℚ) : ℤ :=
  if v - (⌊v⌋ : ℚ) = 1 / 2 then (if ⌊v⌋ % 2 = 0 then ⌊v⌋ else ⌊v⌋ + 1) else round v

/-- The float-to-integer conversion of `_to_int_series` (lines 235-244) for one
value, by the chosen rounding method. -/
def to_int_value (round_method : String) (v : ℚ) : ℤ :=
  if round_method == "floor" then ⌊v⌋
  else if round_method == "ceil" then ⌈v⌉
  else roundHalfEven v

/-- Can one rounded value be cast to pandas nullable `Int64`: NA (NaN) is
kept, a finite value must fit in 64-bit range, and the `astype` of a column
containing ±inf raises `IntCastingNaNError`. -/
def pyCastable (round_method : String) (x : PyFloat) : Bool :=
  match x with
  | .nan => true
  | .inf => false
  | .ninf => false
  | .finite q =>
    decide (-(2 ^ 63 : ℤ) ≤ to_int_value round_method q ∧
      to_int_value round_method q ≤ 2 ^ 63 - 1)

/-- `_to_int_series` (lines 235-244) followed by `astype("Int64")`: round and
convert to nullable integers, keeping NA for NaN; a column holding an
infinite or out-of-range value makes the cast raise. -/
def to_int_series (round_method : String) (l : List PyFloat) :
    PyResult (List (Option ℤ)) :=
  if l.all (fun x => pyCastable round_method x) then
    .ok (l.map (fun x => match x with
      | .nan => none
      | .finite q => some (to_int_value round_method q)
      | _ => none))
  else .error "IntCastingNaNError: cannot convert non-finite values to integer"

/-- The `enforce_int=True` output columns of `clean_salary_columns_int`
(lines 246-250 and 256-259), produced column by column; the first failing
cast raises. -/
def clean_salary_int (cols : SalaryCols) (fill_strategy : Option String)
    (round_method : String) :
    PyResult (List (Option ℤ) × List (Option ℤ) × List (Option ℤ)) :=
  let f := clean_salary_float cols fill_strategy
  match to_int_series round_method f.1, to_int_series round_method f.2.1,
      to_int_series round_method f.2.2 with
  | .ok a, .ok b, .ok c => .ok (a, b, c)
  | .error e, _, _ => .error e
  | .ok _, .error e, _ => .error e
  | .ok _, .ok _, .error e => .error e

/-- The externally visible effect of a successful `export_for_tableau` call:
which writer ran, on which data, to which path. -/
inductive ExportCall where
  | parquet (df : SalaryCols) (path : String)
  | csv (df : SalaryCols) (path : String)
deriving Repr, DecidableEq

/-- Embedding of `export_for_tableau` (lines 271-284): the format dispatch of
the source; an unknown format raises `ValueError`, modelled by `PyResult.error`.
The writers themselves are external collaborators and never inspect the parsed
values, which is visible here in that the error case depends only on `fmt`. -/
def export_for_tableau (df : SalaryCols) (path : String) (fmt : String) :
    PyResult ExportCall :=
  if fmt == "parquet" then .ok (.parquet df path)
  else if fmt == "csv" then .ok (.csv df path)
  else .error "fmt must be parquet or csv"

/-! ### Concrete overflow inputs -/

/-- A run of 310 nines: a decimal literal of this size exceeds the double
overflow bound, so `float` on it returns `inf`. -/
def overflowNines : String := String.mk (List.replicate 310 '9')

/-- A range cell whose left side parses, through the accounting-negative rule
of `_parse_single_number`, to −∞, and whose right side overflows to +∞. -/
def infRangeCell : String := "x(" ++ overflowNines ++ ") to " ++ overflowNines

/-! ### Auxiliary lemmas -/

theorem isNan_eq_false_iff {x : PyFloat} : isNan x = false ↔ x ≠ PyFloat.nan := by
  cases x <;> simp [isNan]

theorem satFloat_ne_nan (q : ℚ) : satFloat q ≠ PyFloat.nan := by
  unfold satFloat
  split
  · exact fun h => PyFloat.noConfusion h
  · split
    · exact fun h => PyFloat.noConfusion h
    · exact fun h => PyFloat.noConfusion h

theorem pyHalf_eq_nan_iff {x : PyFloat} : pyHalf x = PyFloat.nan ↔ x = PyFloat.nan := by
  cases x <;> simp [pyHalf]

theorem toE_lt_of_pyLt {a b : PyFloat} (h : pyLt a b = true) : toE a < toE b := by
  unfold pyLt at h
  split at h
  · exact Bool.noConfusion h
  · exact Bool.noConfusion h
  · exact of_decide_eq_true h

theorem pyLe_of_toE_le {a b : PyFloat} (hna : isNan a = false) (hnb : isNan b = false)
    (h : toE a ≤ toE b) : pyLe a b = true := by
  cases a with
  | nan => simp [isNan] at hna
  | ninf =>
    cases b with
    | nan => simp [isNan] at hnb
    | ninf => exact decide_eq_true h
    | inf => exact decide_eq_true h
    | finite q => exact decide_eq_true h
  | inf =>
    cases b with
    | nan => simp [isNan] at hnb
    | ninf => exact decide_eq_true h
    | inf => exact decide_eq_true h
    | finite q => exact decide_eq_true h
  | finite p =>
    cases b with
    | nan => simp [isNan] at hnb
    | ninf => exact decide_eq_true h
    | inf => exact decide_eq_true h
    | finite q => exact decide_eq_true h

theorem pyMinAcc_eq (a c : PyFloat) : pyMinAcc a c = a ∨ pyMinAcc a c = c := by
  unfold pyMinAcc
  split
  · exact Or.inr rfl
  · exact Or.inl rfl

theorem pyMaxAcc_eq (a c : PyFloat) : pyMaxAcc a c = a ∨ pyMaxAcc a c = c := by
  unfold pyMaxAcc
  split
  · exact Or.inr rfl
  · exact Or.inl rfl

theorem foldl_acc_mem (f : PyFloat → PyFloat → PyFloat)
    (hf : ∀ a b, f a b = a ∨ f a b = b) :
    ∀ (l : List PyFloat) (a : PyFloat), l.foldl f a = a ∨ l.foldl f a ∈ l := by
  intro l
  induction l with
  | nil => intro a; exact Or.inl rfl
  | cons c cs ih =>
    intro a
    rw [List.foldl_cons]
    rcases ih (f a c) with h | h
    · rcases hf a c with h2 | h2
      · exact Or.inl (by rw [h, h2])
      · exact Or.inr (by rw [h, h2]; exact List.mem_cons_self _ _)
    · exact Or.inr (List.mem_cons_of_mem _ h)

theorem toE_pyMinAcc_le (a c : PyFloat) : toE (pyMinAcc a c) ≤ toE a := by
  unfold pyMinAcc
  split
  · rename_i h
    exact le_of_lt (toE_lt_of_pyLt h)
  · exact le_refl _

theorem toE_le_pyMaxAcc (b c : PyFloat) : toE b ≤ toE (pyMaxAcc b c) := by
  unfold pyMaxAcc
  split
  · rename_i h
    exact le_of_lt (toE_lt_of_pyLt h)
  · exact le_refl _

theorem foldl_minAcc_le_maxAcc (l : List PyFloat) : ∀ a b : PyFloat, toE a ≤ toE b →
    toE (l.foldl pyMinAcc a) ≤ toE (l.foldl pyMaxAcc b) := by
  induction l with
  | nil => intro a b h; exact h
  | cons c cs ih =>
    intro a b h
    exact ih _ _ (le_trans (le_trans (toE_pyMinAcc_le a c) h) (toE_le_pyMaxAcc b c))

theorem half_add_nan_iff {mn mx : PyFloat} (hna : isNan mn = false) (hnb : isNan mx = false)
    (hle : pyLe mn mx = true) :
    pyHalf (pyAdd mn mx) = PyFloat.nan ↔ mn = PyFloat.ninf ∧ mx = PyFloat.inf := by
  cases mn with
  | nan => simp [isNan] at hna
  | ninf =>
    cases mx with
    | nan => simp [isNan] at hnb
    | ninf => simp [pyAdd, pyHalf]
    | inf => simp [pyAdd, pyHalf]
    | finite q => simp [pyAdd, pyHalf]
  | inf =>
    cases mx with
    | nan => simp [isNan] at hnb
    | ninf =>
      exfalso
      have := of_decide_eq_true (show decide (toE PyFloat.inf ≤ toE PyFloat.ninf) = true from hle)
      simp [toE] at this
    | inf => simp [pyAdd, pyHalf]
    | finite q =>
      exfalso
      have := of_decide_eq_true
        (show decide (toE PyFloat.inf ≤ toE (PyFloat.finite q)) = true from hle)
      simp [toE] at this
  | finite p =>
    cases mx with
    | nan => simp [isNan] at hnb
    | ninf => simp [pyAdd, pyHalf]
    | inf => simp [pyAdd, pyHalf]
    | finite q =>
      constructor
      · intro h
        exact absurd (pyHalf_eq_nan_iff.mp h) (satFloat_ne_nan (p + q))
      · intro h
        exact absurd h.1 (by simp)

theorem mem_filter_not_nan {l : List PyFloat} :
    ∀ v ∈ l.filter (fun v => !(isNan v)), isNan v = false := by
  intro v hv
  have := (List.mem_filter.mp hv).2
  simpa using this

theorem rangeResult_spec (nums : List PyFloat) (hn : ∀ v ∈ nums, isNan v = false) :
    rangeResult nums = (PyFloat.nan, PyFloat.nan, PyFloat.nan) ∨
    (∃ v, isNan v = false ∧ rangeResult nums = (v, v, v)) ∨
    (∃ mn mx, isNan mn = false ∧ isNan mx = false ∧ pyLe mn mx = true ∧
      rangeResult nums = (mn, mx, pyHalf (pyAdd mn mx)) ∧
      (pyHalf (pyAdd mn mx) = PyFloat.nan ↔ mn = PyFloat.ninf ∧ mx = PyFloat.inf)) := by
  match nums with
  | [] => exact Or.inl rfl
  | [x] => exact Or.inr (Or.inl ⟨x, hn x (by simp), rfl⟩)
  | x :: y :: ys =>
    right
    right
    have hmn : isNan ((y :: ys).foldl pyMinAcc x) = false := by
      rcases foldl_acc_mem pyMinAcc pyMinAcc_eq (y :: ys) x with h | h
      · rw [h]
        exact hn x (List.mem_cons_self _ _)
      · exact hn _ (List.mem_cons_of_mem _ h)
    have hmx : isNan ((y :: ys).foldl pyMaxAcc x) = false := by
      rcases foldl_acc_mem pyMaxAcc pyMaxAcc_eq (y :: ys) x with h | h
      · rw [h]
        exact hn x (List.mem_cons_self _ _)
      · exact hn _ (List.mem_cons_of_mem _ h)
    have hle : pyLe ((y :: ys).foldl pyMinAcc x) ((y :: ys).foldl pyMaxAcc x) = true :=
      pyLe_of_toE_le hmn hmx (foldl_minAcc_le_maxAcc (y :: ys) x x (le_refl _))
    exact ⟨_, _, hmn, hmx, hle, rfl, half_add_nan_iff hmn hmx hle⟩

theorem singleResult_spec (sc : String) :
    singleResult sc = (PyFloat.nan, PyFloat.nan, PyFloat.nan) ∨
    (∃ v, isNan v = false ∧ singleResult sc = (v, v, v)) ∨
    (∃ mn mx, isNan mn = false ∧ isNan mx = false ∧ pyLe mn mx = true ∧
      singleResult sc = (mn, mx, pyHalf (pyAdd mn mx)) ∧
      (pyHalf (pyAdd mn mx) = PyFloat.nan ↔ mn = PyFloat.ninf ∧ mx = PyFloat.inf)) := by
  unfold singleResult
  dsimp only
  split
  · exact Or.inl rfl
  · rename_i h
    exact Or.inr (Or.inl ⟨parse_single_number (some sc), by simpa using h, rfl⟩)

theorem mem_of_stateLookup {t v : String} (h : stateLookup t = some v) :
    stateAbbrevs.contains v = true := by
  unfold stateLookup at h
  cases hf : US_STATE_MAP.find? (fun p => p.1 == t) with
  | none => rw [hf] at h; exact Option.noConfusion h
  | some p =>
    rw [hf] at h
    injection h with h2
    subst h2
    have hmem := List.mem_of_find?_eq_some hf
    have : p.2 ∈ stateAbbrevs := List.mem_map_of_mem (fun q => q.2) hmem
    exact List.elem_eq_true_of_mem this

theorem stateStep_state {parts : List String} {v : String}
    (h : (stateStep parts).1 = some v) : ∃ t, normalize_state t = some v := by
  unfold stateStep at h
  split at h
  · exact Option.noConfusion h
  · rename_i cand heq
    split at h
    · rename_i ab hab
      have hv : ab = v := by simpa using h
      exact ⟨cand, by rw [hab, hv]⟩
    · exact Option.noConfusion h

theorem normalize_state_mem {t v : String} (h : normalize_state t = some v) :
    stateAbbrevs.contains v = true := by
  unfold normalize_state at h
  dsimp only at h
  split at h
  · exact Option.noConfusion h
  · split at h
    · rename_i hcont
      cases h
      exact hcont
    · split at h
      · rename_i w hw
        cases h
        exact mem_of_stateLookup hw
      · exact Option.noConfusion h

theorem char_ofNat_toNat (m : Nat) (h : m < 55296) : (Char.ofNat m).toNat = m := by
  have hv : m.isValidChar := Or.inl h
  rw [Char.ofNat, dif_pos hv]
  rfl

theorem isAlpha_toLower {c : Char} (h : c.isAlpha = true) : (c.toLower).isAlpha = true := by
  simp only [Char.isAlpha, Bool.or_eq_true, Char.isUpper, Char.isLower, Bool.and_eq_true,
    decide_eq_true_eq] at h
  unfold Char.toLower
  simp only [Char.isAlpha, Bool.or_eq_true, Char.isUpper, Char.isLower, Bool.and_eq_true,
    decide_eq_true_eq]
  rcases h with ⟨h1, h2⟩ | ⟨h1, h2⟩
  · have hb1 : 65 ≤ c.toNat := h1
    have hb2 : c.toNat ≤ 90 := h2
    rw [if_pos ⟨hb1, hb2⟩]
    have ht : (Char.ofNat (c.toNat + 32)).toNat = c.toNat + 32 := char_ofNat_toNat _ (by omega)
    right
    constructor
    · show (97 : UInt32) ≤ _
      rw [UInt32.le_def, BitVec.le_def]
      have hx : (Char.ofNat (c.toNat + 32)).val.toBitVec.toNat = c.toNat + 32 := ht
      simp [hx]; omega
    · show _ ≤ (122 : UInt32)
      rw [UInt32.le_def, BitVec.le_def]
      have hx : (Char.ofNat (c.toNat + 32)).val.toBitVec.toNat = c.toNat + 32 := ht
      simp [hx]; omega
  · have hb1 : 97 ≤ c.toNat := h1
    have hb2 : c.toNat ≤ 122 := h2
    rw [if_neg (by omega : ¬(65 ≤ c.toNat ∧ c.toNat ≤ 90))]
    right
    exact ⟨h1, h2⟩

theorem isAlpha_not_ws {c : Char} (h : c.isAlpha = true) : c.isWhitespace = false := by
  by_contra hw
  simp only [Bool.not_eq_false] at hw
  simp only [Char.isWhitespace, Bool.or_eq_true, decide_eq_true_eq] at hw
  rcases hw with ((h1 | h1) | h1) | h1 <;> subst h1 <;> exact absurd h (by decide)

theorem isAlpha_word {c : Char} (h : c.isAlpha = true) : isWordChar c = true := by
  simp [isWordChar, Char.isAlphanum, h]

theorem dropWhile_eq_self_of_all {p : Char → Bool} {l : List Char}
    (h : l.all (fun c => !p c) = true) : l.dropWhile p = l := by
  cases l with
  | nil => rfl
  | cons a as =>
    simp only [List.all_cons, Bool.and_eq_true, Bool.not_eq_true'] at h
    simp [List.dropWhile_cons, h.1]

theorem trimL_eq_self {l : List Char} (h : l.all (fun c => !c.isWhitespace) = true) :
    trimL l = l := by
  unfold trimL dropTrailing
  rw [dropWhile_eq_self_of_all h]
  rw [dropWhile_eq_self_of_all (by simpa [List.all_reverse] using h)]
  exact List.reverse_reverse l

theorem normalize_country_two_alpha {last : String}
    (h2 : (pyStrip last).length = 2) (ha : (pyStrip last).data.all Char.isAlpha = true) :
    normalize_country last =
      (match countryLookup (pyLower (pyStrip last)) with
       | some v => some v
       | none => some (pyUpper (pyLower (pyStrip last)))) := by
  have hmapalpha : (pyLower (pyStrip last)).data.all Char.isAlpha = true := by
    simp only [pyLower, List.all_map, List.all_eq_true] at ha ⊢
    intro a hmem
    exact isAlpha_toLower (ha a hmem)
  have hall : ∀ c ∈ (pyLower (pyStrip last)).data, (isWordChar c || c.isWhitespace) = true := by
    intro c hc
    have := List.all_eq_true.mp hmapalpha c hc
    simp [isAlpha_word this]
  have hfilter : (pyLower (pyStrip last)).data.filter (fun c => isWordChar c || c.isWhitespace) =
      (pyLower (pyStrip last)).data := List.filter_eq_self.mpr hall
  have hnws : (pyLower (pyStrip last)).data.all (fun c => !c.isWhitespace) = true := by
    rw [List.all_eq_true] at hmapalpha ⊢
    intro a hmem
    simp [isAlpha_not_ws (hmapalpha a hmem)]
  have ht : pyStrip (String.mk ((pyLower (pyStrip last)).data.filter
      (fun c => isWordChar c || c.isWhitespace))) = pyLower (pyStrip last) := by
    rw [hfilter]
    show String.mk (trimL (pyLower (pyStrip last)).data) = pyLower (pyStrip last)
    rw [trimL_eq_self hnws]
  have hlen : (pyLower (pyStrip last)).length = 2 := by
    have hx : (pyLower (pyStrip last)).length = (pyStrip last).length := by
      show ((pyStrip last).data.map Char.toLower).length = (pyStrip last).data.length
      exact List.length_map _ _
    rw [hx, h2]
  have hne : pyLower (pyStrip last) ≠ "" := by
    intro hb
    rw [hb] at hlen
    exact absurd hlen (by decide)
  unfold normalize_country
  dsimp only
  rw [ht, if_neg hne]
  cases hlu : countryLookup (pyLower (pyStrip last)) with
  | some v => rfl
  | none =>
    dsimp only
    rw [if_pos]
    simp [hlen, hmapalpha]

theorem countryStep_two_alpha {parts : List String} {last : String}
    (hlast : parts.getLast? = some last)
    (h2 : (pyStrip last).length = 2) (ha : (pyStrip last).data.all Char.isAlpha = true) :
    countryStep parts = (normalize_country last, parts.dropLast) := by
  have hsome : ∃ c, normalize_country last = some c := by
    rw [normalize_country_two_alpha h2 ha]
    cases countryLookup (pyLower (pyStrip last)) <;> exact ⟨_, rfl⟩
  obtain ⟨c, hc⟩ := hsome
  have hacc : countryAccept last (some c) = true := by
    unfold countryAccept
    have hb : ((pyStrip last).length == 2 && (pyStrip last).data.all Char.isAlpha) = true := by
      rw [h2, ha]
      rfl
    rw [hb]
    simp
  unfold countryStep
  rw [hlast]
  dsimp only
  rw [hc, if_pos hacc]

theorem fillNA_not_nan {stat : PyFloat} (hs : stat ≠ PyFloat.nan) (l : List PyFloat) :
    ∀ x ∈ fillNA stat l, isNan x = false := by
  intro x hx
  unfold fillNA at hx
  obtain ⟨y, hy, rfl⟩ := List.mem_map.mp hx
  by_cases hN : isNan y = true
  · rw [if_pos hN]
    exact isNan_eq_false_iff.mpr hs
  · rw [if_neg hN]
    simpa using hN

theorem to_int_ok_defined {rm : String} {l : List PyFloat} {ys : List (Option ℤ)}
    (h : to_int_series rm l = PyResult.ok ys) (hl : ∀ x ∈ l, isNan x = false) :
    ∀ y ∈ ys, y.isSome = true := by
  unfold to_int_series at h
  split at h
  · rename_i hall
    injection h with h2
    subst h2
    intro y hy
    obtain ⟨x, hx, rfl⟩ := List.mem_map.mp hy
    have hcast := List.all_eq_true.mp hall x hx
    have hnn := hl x hx
    cases x with
    | nan => simp [isNan] at hnn
    | inf => simp [pyCastable] at hcast
    | ninf => simp [pyCastable] at hcast
    | finite q => rfl
  · exact PyResult.noConfusion h

/-! ### The claims -/

section ConcreteEvaluations

attribute [local semireducible] Rat.mul Rat.add Rat.inv Rat.sub

set_option maxRecDepth 8000

/-- Claim C1: the spec asserts that `parse_location`, `parse_salary_field` and
`classify_title` are total and never raise; `parse_location` violates this.
On the cell `"Remote"` every token is removed as an exact `remote` token and
line 183 of `location_cleaner.py` evaluates `parts[-1]` on the empty list, so
the call raises `IndexError` instead of returning a record. -/
theorem claim_c1_location_raises :
    parse_location (some ("Remote")) = PyResult.error pyIndexError := by decide

/-- Claim C2: the spec asserts `parse_salary_field("€50.000,00") = 50000.0` for
all three fields. The code instead finds the two numeric tokens `50.000` and
`00` (the token regex of line 135 splits at the decimal comma), parses them as
50.0 and 0.0, and returns `(0.0, 50.0, 25.0)`; even the single-number routine
returns 50.0 because Strategy A (line 73) strips the comma and parses `50.00000`
before the European reparse of line 82 can run. -/
theorem claim_c2_euro_eval :
    parse_salary_field (some ("€50.000,00")) =
      (PyFloat.finite 0, PyFloat.finite 50, PyFloat.finite 25) ∧
    parse_single_number (some ("€50.000,00")) = PyFloat.finite 50 := ⟨by decide, by decide⟩

/-- Claim C3: the spec asserts `parse_salary_field("(60,000)") = -60000` by the
accounting convention. The wrapper cleanup of line 118 strips the surrounding
parentheses before `_parse_single_number` can see them, so the field parser
returns `+60000`; the accounting-negative rule of lines 54-56 does fire when
`_parse_single_number` receives the parenthesised string intact. -/
theorem claim_c3_paren_eval :
    parse_salary_field (some ("(60,000)")) =
      (PyFloat.finite 60000, PyFloat.finite 60000, PyFloat.finite 60000) ∧
    parse_single_number (some ("(60,000)")) = PyFloat.finite (-60000) := ⟨by decide, by decide⟩

/-- Claim C4: the three location examples of the spec evaluate exactly as
stated: `"Remote, US"` gives no city or state, country `US` and the remote
flag; `"New York, NY, US"` gives city `New York`, state `NY`, country `US`,
not remote; `"US"` gives only the country. -/
theorem claim_c4_location_examples :
    parse_location (some ("Remote, US")) = PyResult.ok
      { city := none, state := none, country := some ("US"), is_remote := true,
        raw := some ("Remote, US") } ∧
    parse_location (some ("New York, NY, US")) = PyResult.ok
      { city := some ("New York"), state := some ("NY"), country := some ("US"),
        is_remote := false, raw := some ("New York, NY, US") } ∧
    parse_location (some ("US")) = PyResult.ok
      { city := none, state := none, country := some ("US"), is_remote := false,
        raw := some ("US") } := ⟨by decide, by decide, by decide⟩

/-- Claim C5, counterexample: the claim states that when `is_remote` is true no
token matching the starts-with-`remote ` rule remains in the derived city; on
`"remote work, US"` the parser sets `is_remote` and still returns the city
`"remote work"`, which starts with `remote `, because line 173 removes only
tokens that are exactly `remote`. -/
theorem claim_c5_counterexample :
    ∃ r, parse_location (some ("remote work, US")) = PyResult.ok r ∧
      r.is_remote = true ∧ r.city = some ("remote work") ∧
      listStartsWith ("remote ").data ("remote work").data = true := by
  refine ⟨_, rfl, ?_, ?_, ?_⟩ <;> decide

/-- Claim C10, counterexample: on a range cell whose left side parses, through
the accounting-negative rule, to −∞ and whose right side overflows to +∞, the
program returns `(-inf, inf, nan)`: min and max are defined and the mean is
NaN — an output with exactly two defined fields, which the claim says never
occurs. -/
theorem claim_c10_counterexample :
    parse_salary_field (some infRangeCell) = (PyFloat.ninf, PyFloat.inf, PyFloat.nan) ∧
    isNan PyFloat.ninf = false ∧ isNan PyFloat.inf = false ∧ isNan PyFloat.nan = true :=
  ⟨by decide, rfl, rfl, rfl⟩

/-- Claim C8, counterexample: the min-amount column of this frame parses to
−∞, +∞ and NaN. The known values of the parsed min column are nonempty, yet
the median fill statistic is the float average of −∞ and +∞, which is NaN, so
`fillna` is a no-op and the cleaned min column keeps an undefined row. -/
theorem claim_c8_counterexample :
    knownVals (parsedReconciled
      { n := 3, meanCol := none,
        minCol := some [some infRangeCell, some overflowNines, some ("zzz")],
        maxCol := none }).1 ≠ [] ∧
    (clean_salary_float
      { n := 3, meanCol := none,
        minCol := some [some infRangeCell, some overflowNines, some ("zzz")],
        maxCol := none } (some ("median"))).1 =
      [PyFloat.ninf, PyFloat.inf, PyFloat.nan] := ⟨by decide, by decide⟩

end ConcreteEvaluations

/-- Claim C5, amended: when `parse_location` returns a record with
`is_remote = true`, every token remaining in the list from which the city is
derived differs (case-insensitively) from the exact token `remote`; tokens that
merely start with `remote ` or end with ` remote` may remain. The state field,
when present, is always one of the two-letter state abbreviations and in
particular never a remote token. -/
theorem claim_c5_amended_strip (cell : Option String) (r : LocationRecord)
    (hok : parse_location cell = PyResult.ok r) (hrem : r.is_remote = true) :
    ∀ s, cell = some s →
      (∀ p ∈ remoteFilter (locParts (pyStrip s)), pyLower p ≠ "remote") ∧
      (∀ v, r.state = some v → stateAbbrevs.contains v = true ∧ v ≠ "remote") := by
  intro s hcell
  subst hcell
  unfold parse_location at hok
  dsimp only at hok
  split at hok
  · cases hok; simp at hrem
  · split at hok
    · cases hok; simp at hrem
    · split at hok
      · exact PyResult.noConfusion hok
      · cases hok
        simp only at hrem
        constructor
        · intro p hp
          unfold remoteFilter at hp
          rw [if_pos hrem] at hp
          have := List.mem_filter.mp hp
          simpa using this.2
        · intro v hv
          simp only at hv
          obtain ⟨t, ht⟩ := stateStep_state hv
          have hc := normalize_state_mem ht
          refine ⟨hc, ?_⟩
          intro hveq
          subst hveq
          exact absurd hc (by decide)

/-- Claim C6: when the last token remaining after remote removal consists of
exactly 2 alphabetic characters, `parse_location` accepts it as the country
(normalised through `_normalize_country`, which returns the upper-cased
pass-through code whenever the token is not in the country table), removes it,
and resolves state and city only from the remaining prefix: country is resolved
before state, from the tail of the token list. -/
theorem claim_c6_two_letter_country (s last : String)
    (hlast : (remoteFilter (locParts (pyStrip s))).getLast? = some last)
    (h2 : (pyStrip last).length = 2)
    (ha : (pyStrip last).data.all Char.isAlpha = true) :
    ∃ r, parse_location (some s) = PyResult.ok r ∧
      r.country = normalize_country last ∧
      r.country ≠ none ∧
      (countryLookup (pyLower (pyStrip last)) = none →
        r.country = some (pyUpper (pyLower (pyStrip last)))) ∧
      r.state = (stateStep ((remoteFilter (locParts (pyStrip s))).dropLast)).1 ∧
      r.city = cityOf ((stateStep ((remoteFilter (locParts (pyStrip s))).dropLast)).2) := by
  have hblank : ¬ (pyStrip s = "") := by
    intro hb
    rw [hb] at hlast
    have hz : (remoteFilter (locParts (""))).getLast? = none := rfl
    rw [hz] at hlast
    exact Option.noConfusion hlast
  have hparts : ¬ (locParts (pyStrip s) = []) := by
    intro hp
    rw [hp] at hlast
    have hz : (remoteFilter ([] : List String)).getLast? = none := rfl
    rw [hz] at hlast
    exact Option.noConfusion hlast
  have hsome : ∃ c, normalize_country last = some c := by
    rw [normalize_country_two_alpha h2 ha]
    cases countryLookup (pyLower (pyStrip last)) <;> exact ⟨_, rfl⟩
  obtain ⟨c, hc⟩ := hsome
  unfold parse_location
  dsimp only
  rw [if_neg hblank, if_neg hparts, hlast]
  dsimp only
  rw [countryStep_two_alpha hlast h2 ha]
  dsimp only
  rw [hc]
  cases hcity : cityOf ((stateStep ((remoteFilter (locParts (pyStrip s))).dropLast)).2) with
  | none =>
    refine ⟨_, rfl, ?_, ?_, ?_, ?_, ?_⟩ <;> dsimp only
    · simp
    · intro hlu
      rw [normalize_country_two_alpha h2 ha, hlu] at hc
      have hcc := hc
      simp only [Option.some.injEq] at hcc
      exact congrArg some hcc.symm
  | some ct =>
    refine ⟨_, rfl, ?_, ?_, ?_, ?_, ?_⟩ <;> dsimp only
    · simp
    · intro hlu
      rw [normalize_country_two_alpha h2 ha, hlu] at hc
      have hcc := hc
      simp only [Option.some.injEq] at hcc
      exact congrArg some hcc.symm

/-- Claim C7: with the default labels, `classify_title` returns `Unknown`
exactly on missing or blank titles; for present titles the data patterns are
consulted first (a match gives `Data Scientist`, so `Senior Data Engineer` is a
data role even though it also contains `engineer`), then the software patterns
(`Software Engineer`), and an unmatched title is coerced to `Software Engineer`
or labelled `Other` according to the coercion flag. -/
theorem claim_c7_classify_title (title : Option String) (coerce : Bool) :
    (classify_title title ("Unknown") ("Other") coerce = "Unknown" ↔
      title = none ∨ ∃ s, title = some s ∧ pyStrip s = "") ∧
    (∀ s, title = some s → pyStrip s ≠ "" →
      anyPattern DATA_PATTERNS (pyStrip s) = true →
      classify_title title ("Unknown") ("Other") coerce = "Data Scientist") ∧
    (∀ s, title = some s → pyStrip s ≠ "" →
      anyPattern DATA_PATTERNS (pyStrip s) = false →
      anyPattern SOFTWARE_PATTERNS (pyStrip s) = true →
      classify_title title ("Unknown") ("Other") coerce = "Software Engineer") ∧
    (∀ s, title = some s → pyStrip s ≠ "" →
      anyPattern DATA_PATTERNS (pyStrip s) = false →
      anyPattern SOFTWARE_PATTERNS (pyStrip s) = false →
      classify_title title ("Unknown") ("Other") coerce =
        (if coerce then "Software Engineer" else "Other")) ∧
    classify_title (some ("Senior Data Engineer")) ("Unknown") ("Other") coerce =
      "Data Scientist" := by
  refine ⟨?_, ?_, ?_, ?_, ?_⟩
  · constructor
    · intro h
      match title with
      | none => exact Or.inl rfl
      | some s =>
        right
        refine ⟨s, rfl, ?_⟩
        by_contra hne
        unfold classify_title at h
        dsimp only at h
        rw [if_neg hne] at h
        split at h
        · exact absurd h (by decide)
        · split at h
          · exact absurd h (by decide)
          · split at h
            · exact absurd h (by decide)
            · exact absurd h (by decide)
    · intro h
      rcases h with h | ⟨s, hs, hblank⟩
      · subst h; rfl
      · subst hs; unfold classify_title; dsimp only; rw [if_pos hblank]
  · intro s hs hne hdata
    subst hs
    unfold classify_title
    dsimp only
    rw [if_neg hne, if_pos hdata]
  · intro s hs hne hdata hsw
    subst hs
    unfold classify_title
    dsimp only
    rw [if_neg hne, if_neg (by simp [hdata]), if_pos hsw]
  · intro s hs hne hdata hsw
    subst hs
    unfold classify_title
    dsimp only
    rw [if_neg hne, if_neg (by simp [hdata]), if_neg (by simp [hsw])]
  · have h1 : pyStrip ("Senior Data Engineer") ≠ "" := by decide
    have h2 : anyPattern DATA_PATTERNS (pyStrip ("Senior Data Engineer")) = true := by decide
    unfold classify_title
    dsimp only
    rw [if_neg h1, if_pos h2]

/-- Claim C8, amended: after `clean_salary_columns_int` runs with the `median`
or `mean` back-fill strategy, no row of the three cleaned float columns is
undefined unless the column's own fill statistic is NaN — which happens when
the column had zero known values, and also with known values present when
they include both −∞ and +∞ (the float median or mean of such a column is
NaN and `fillna` with NaN leaves the gaps). For the integer output columns
the same holds whenever the `Int64` conversion succeeds. -/
theorem claim_c8_backfill (cols : SalaryCols) (fs : Option String) (rm : String) :
    (fs = some ("median") →
      (medianStat (parsedReconciled cols).1 ≠ PyFloat.nan →
        ∀ x ∈ (clean_salary_float cols fs).1, isNan x = false) ∧
      (medianStat (parsedReconciled cols).2.1 ≠ PyFloat.nan →
        ∀ x ∈ (clean_salary_float cols fs).2.1, isNan x = false) ∧
      (meanStat (parsedReconciled cols).2.2 ≠ PyFloat.nan →
        ∀ x ∈ (clean_salary_float cols fs).2.2, isNan x = false)) ∧
    (fs = some ("mean") →
      (meanStat (parsedReconciled cols).1 ≠ PyFloat.nan →
        ∀ x ∈ (clean_salary_float cols fs).1, isNan x = false) ∧
      (meanStat (parsedReconciled cols).2.1 ≠ PyFloat.nan →
        ∀ x ∈ (clean_salary_float cols fs).2.1, isNan x = false) ∧
      (meanStat (parsedReconciled cols).2.2 ≠ PyFloat.nan →
        ∀ x ∈ (clean_salary_float cols fs).2.2, isNan x = false)) ∧
    (∀ lm lx le, clean_salary_int cols fs rm = PyResult.ok (lm, lx, le) →
      ((∀ x ∈ (clean_salary_float cols fs).1, isNan x = false) →
        ∀ y ∈ lm, y.isSome = true) ∧
      ((∀ x ∈ (clean_salary_float cols fs).2.1, isNan x = false) →
        ∀ y ∈ lx, y.isSome = true) ∧
      ((∀ x ∈ (clean_salary_float cols fs).2.2, isNan x = false) →
        ∀ y ∈ le, y.isSome = true)) := by
  refine ⟨?_, ?_, ?_⟩
  · intro hfs
    subst hfs
    unfold clean_salary_float
    dsimp only
    exact ⟨fun h => fillNA_not_nan h _, fun h => fillNA_not_nan h _, fun h => fillNA_not_nan h _⟩
  · intro hfs
    subst hfs
    unfold clean_salary_float
    dsimp only
    exact ⟨fun h => fillNA_not_nan h _, fun h => fillNA_not_nan h _, fun h => fillNA_not_nan h _⟩
  · intro lm lx le h
    unfold clean_salary_int at h
    dsimp only at h
    split at h
    · rename_i a b c ha hb hc
      injection h with h2
      injection h2 with hA hBC
      injection hBC with hB hC
      subst hA; subst hB; subst hC
      exact ⟨fun hx => to_int_ok_defined ha hx,
             fun hx => to_int_ok_defined hb hx,
             fun hx => to_int_ok_defined hc hx⟩
    · exact PyResult.noConfusion h
    · exact PyResult.noConfusion h
    · exact PyResult.noConfusion h

/-- Claim C9: `export_for_tableau` succeeds on exactly the formats `parquet`
and `csv` and raises `ValueError` on every other format; whether a call errs
depends only on the `fmt` argument, never on the data, so parsing-level data
problems cannot surface through this interface. -/
theorem claim_c9_export (df : SalaryCols) (path : String) :
    export_for_tableau df path ("parquet") = PyResult.ok (ExportCall.parquet df path) ∧
    export_for_tableau df path ("csv") = PyResult.ok (ExportCall.csv df path) ∧
    (∀ fmt, fmt ≠ "parquet" → fmt ≠ "csv" →
      export_for_tableau df path fmt = PyResult.error ("fmt must be parquet or csv")) ∧
    (∀ fmt e, export_for_tableau df path fmt = PyResult.error e →
      fmt ≠ "parquet" ∧ fmt ≠ "csv") ∧
    (∀ df2 : SalaryCols, ∀ path2 fmt,
      (∃ e, export_for_tableau df path fmt = PyResult.error e) ↔
      (∃ e, export_for_tableau df2 path2 fmt = PyResult.error e)) := by
  refine ⟨rfl, rfl, ?_, ?_, ?_⟩
  · intro fmt h1 h2
    unfold export_for_tableau
    rw [if_neg (by simpa using h1), if_neg (by simpa using h2)]
  · intro fmt e h
    unfold export_for_tableau at h
    constructor
    · intro hq; subst hq; simp at h
    · intro hq; subst hq; simp at h
  · intro df2 path2 fmt
    unfold export_for_tableau
    by_cases h1 : fmt = "parquet"
    · subst h1; simp
    · by_cases h2 : fmt = "csv"
      · subst h2; simp
      · rw [if_neg (by simpa using h1), if_neg (by simpa using h2),
            if_neg (by simpa using h1), if_neg (by simpa using h2)]

/-- Claim C10, amended: for every cell the triple returned by
`parse_salary_field` is either entirely NaN, or all three fields equal to one
non-NaN value, or min and max are non-NaN with min ≤ max under the float
order and the mean equal to the float value of `(min + max) / 2.0`. That mean
is NaN exactly when min is −∞ and max is +∞ — so an output with exactly two
defined fields occurs precisely then, and one with exactly one defined field
never — and it can be +∞ (exceeding max) when the finite sum overflows. -/
theorem claim_c10_salary_invariant (cell : Option String) :
    parse_salary_field cell = (PyFloat.nan, PyFloat.nan, PyFloat.nan) ∨
    (∃ v, isNan v = false ∧ parse_salary_field cell = (v, v, v)) ∨
    (∃ mn mx, isNan mn = false ∧ isNan mx = false ∧ pyLe mn mx = true ∧
      parse_salary_field cell = (mn, mx, pyHalf (pyAdd mn mx)) ∧
      (pyHalf (pyAdd mn mx) = PyFloat.nan ↔ mn = PyFloat.ninf ∧ mx = PyFloat.inf)) := by
  unfold parse_salary_field
  match cell with
  | none => exact Or.inl rfl
  | some raw =>
    dsimp only
    split
    · exact Or.inl rfl
    · split
      · exact rangeResult_spec _ mem_filter_not_nan
      · split
        · split
          · exact rangeResult_spec _ mem_filter_not_nan
          · exact singleResult_spec _
        · exact singleResult_spec _

section WitnessEvaluations

attribute [local semireducible] Rat.mul Rat.add Rat.inv Rat.sub

set_option maxRecDepth 8000

/-- Witness for claim C5 at the concrete cell `"Remote, US"`: the parse
succeeds with the remote flag set, and the amended invariant holds there. -/
theorem claim_c5_witness :
    parse_location (some ("Remote, US")) = PyResult.ok
      { city := none, state := none, country := some ("US"), is_remote := true,
        raw := some ("Remote, US") } ∧
    (∀ p ∈ remoteFilter (locParts (pyStrip ("Remote, US"))), pyLower p ≠ "remote") := by
  constructor
  · decide
  · exact ((claim_c5_amended_strip (some ("Remote, US"))
      { city := none, state := none, country := some ("US"), is_remote := true,
        raw := some ("Remote, US") } (by decide) rfl) ("Remote, US") rfl).1

/-- Witness for claim C6 at the concrete cell `"Seattle, XX"`: the last token
`XX` is two alphabetic characters, is not in the country table, and is accepted
as the pass-through country code. -/
theorem claim_c6_witness :
    (remoteFilter (locParts (pyStrip ("Seattle, XX")))).getLast? = some ("XX") ∧
    (pyStrip ("XX")).length = 2 ∧
    (pyStrip ("XX")).data.all Char.isAlpha = true ∧
    ∃ r, parse_location (some ("Seattle, XX")) = PyResult.ok r ∧
      r.country = normalize_country ("XX") ∧
      r.country ≠ none ∧
      (countryLookup (pyLower (pyStrip ("XX"))) = none →
        r.country = some (pyUpper (pyLower (pyStrip ("XX"))))) ∧
      r.state = (stateStep ((remoteFilter (locParts (pyStrip ("Seattle, XX")))).dropLast)).1 ∧
      r.city = cityOf
        ((stateStep ((remoteFilter (locParts (pyStrip ("Seattle, XX")))).dropLast)).2) :=
  ⟨by decide, by decide, by decide,
   claim_c6_two_letter_country ("Seattle, XX") ("XX") (by decide) (by decide) (by decide)⟩

/-- Witness for claim C7 at the concrete title `"Data Analyst"`: the title is
present, matches a data pattern, and is labelled `Data Scientist`. -/
theorem claim_c7_witness :
    pyStrip ("Data Analyst") ≠ "" ∧
    anyPattern DATA_PATTERNS (pyStrip ("Data Analyst")) = true ∧
    classify_title (some ("Data Analyst")) ("Unknown") ("Other") true = "Data Scientist" := by
  refine ⟨by decide, by decide, ?_⟩
  exact (claim_c7_classify_title (some ("Data Analyst")) true).2.1 ("Data Analyst") rfl
    (by decide) (by decide)

/-- Witness for claim C8 on a concrete two-row frame whose mean column holds
one parseable cell: the min column median is a defined (non-NaN) statistic,
and after the median back-fill every row of the cleaned min column is
defined. -/
theorem claim_c8_witness :
    medianStat (parsedReconciled
      { n := 2, meanCol := some [some ("50000"), none], minCol := none,
        maxCol := none }).1 ≠ PyFloat.nan ∧
    (∀ x ∈ (clean_salary_float
        { n := 2, meanCol := some [some ("50000"), none], minCol := none,
          maxCol := none } (some ("median"))).1, isNan x = false) := by
  refine ⟨by decide, ?_⟩
  exact ((claim_c8_backfill
    { n := 2, meanCol := some [some ("50000"), none], minCol := none, maxCol := none }
    (some ("median")) ("round")).1 rfl).1 (by decide)

/-- Witness for claim C9 on a concrete frame and path: the format `xml` is
neither `parquet` nor `csv` and raises, while `parquet` succeeds. -/
theorem claim_c9_witness :
    export_for_tableau { n := 0, meanCol := none, minCol := none, maxCol := none } ("out")
      ("xml") = PyResult.error ("fmt must be parquet or csv") ∧
    export_for_tableau { n := 0, meanCol := none, minCol := none, maxCol := none } ("out")
      ("parquet") = PyResult.ok (ExportCall.parquet
        { n := 0, meanCol := none, minCol := none, maxCol := none } ("out")) := by
  constructor
  · exact (claim_c9_export
      { n := 0, meanCol := none, minCol := none, maxCol := none } ("out")).2.2.1 ("xml")
      (by decide) (by decide)
  · exact (claim_c9_export
      { n := 0, meanCol := none, minCol := none, maxCol := none } ("out")).1

end WitnessEvaluations
